import Mathlib

/-!
Verification development for the task/calendar-sync core of the ai-assistant
repository.  The definitions below are a shallow embedding of the Python
sources:

* `bot/memory/memory_sqlite.py`   — the SQLite store (tasks table, oauth table)
* `bot/integrations/google_calendar.py` — the Google Calendar adapter
* `bot/scheduler/jobs.py`         — reminder scheduling after a pull
* `bot/core/secure_tokens.py`     — encrypted credential blobs
* `bot/commands/tasks.py`         — the /reset_tasks per-item delete loop

Timestamps are epoch seconds modelled as `Int`; the current time is passed
explicitly (`now`) wherever the Python code calls `time.time()` or
`datetime.now()`.  A timezone is modelled as a fixed UTC offset `off` in
seconds, so the local calendar day of an epoch is `(epoch + off).fdiv 86400`.
-/

namespace Assistant

/-! ### Data model — memory_sqlite.py

The `extra` column is a JSON dict.  The code reads exactly three keys from
it: `gcal` (the calendar link payload), `all_day` and `is_birthday`
(truthy flags), so `Extra` models those fields.  `GcalPayload` mirrors the
dict written by `_set_gcal_link` / the pull path: its fields are optional
because the dict can carry `None` values.
-/

structure GcalPayload where
  calendar_id : Option String
  event_id : Option String
  etag : Option String
  updated_epoch : Option Int
  deriving Repr, DecidableEq

structure Extra where
  gcal : Option GcalPayload := none
  all_day : Bool := false
  is_birthday : Bool := false
  deriving Repr, DecidableEq

/-- A row of the `tasks` table (dataclass `Task` in memory_sqlite.py). -/
structure Task where
  id : Nat
  user_id : Nat
  text : String
  raw_text : Option String
  status : String
  due_at : Option Int
  created_at : Int
  updated_at : Int
  source : Option String
  source_agent : Option String
  extra : Option Extra
  calendar_id : Option String
  calendar_event_id : Option String
  calendar_event_etag : Option String
  google_updated_at : Option Int
  recurrence : Option String
  person_id : Option Int
  notes : Option String
  last_modified : Int
  deriving Repr, DecidableEq

/-- The tasks table plus the AUTOINCREMENT counter. -/
structure Store where
  tasks : List Task
  next_id : Nat
  deriving Repr, DecidableEq

/-- `MemorySQLite._to_epoch`: `None` stays `None`, negative values are
dropped to `None`. -/
def to_epoch (v : Option Int) : Option Int :=
  match v with
  | none => none
  | some iv => if 0 ≤ iv then some iv else none

/-- `MemorySQLite.add_task`: inserts a row with
`created_at = updated_at = last_modified = now` and all calendar-link
columns NULL; returns the fresh row id. -/
def add_task (s : Store) (now : Int) (user_id : Nat) (text : String)
    (raw_text : Option String := none) (due_at : Option Int := none)
    (status : String := "open") (source : Option String := none)
    (source_agent : Option String := none) (extra : Option Extra := none)
    (recurrence : Option String := none) (person_id : Option Int := none)
    (notes : Option String := none) : Store × Nat :=
  let t : Task :=
    { id := s.next_id, user_id := user_id, text := text, raw_text := raw_text
      status := status, due_at := to_epoch due_at
      created_at := now, updated_at := now
      source := source, source_agent := source_agent, extra := extra
      calendar_id := none, calendar_event_id := none
      calendar_event_etag := none, google_updated_at := none
      recurrence := recurrence, person_id := person_id, notes := notes
      last_modified := now }
  (⟨s.tasks ++ [t], s.next_id + 1⟩, s.next_id)

/-- The keyword arguments of `MemorySQLite.update_task`.  A field set to
`none` was omitted from the call (not added to the SQL SET list) — except
`due_at`, which the code adds to the SET list unconditionally
(`if due_at is not None or due_at is None:` is always true), so an omitted
`due_at` writes NULL. -/
structure UpdateFields where
  text : Option String := none
  raw_text : Option String := none
  status : Option String := none
  due_at : Option Int := none
  source : Option String := none
  source_agent : Option String := none
  extra : Option Extra := none
  recurrence : Option String := none
  person_id : Option Int := none
  notes : Option String := none
  touch_last_modified : Bool := true
  deriving Repr, DecidableEq

/-- Effect of `MemorySQLite.update_task` on one matching row: provided
fields are overwritten, `due_at` is always written (`to_epoch u.due_at`),
`updated_at` is always set to now, and `last_modified` is set to now only
when `touch_last_modified` is true. -/
def update_task_row (now : Int) (u : UpdateFields) (t : Task) : Task :=
  { t with
    text := u.text.getD t.text
    raw_text := match u.raw_text with | some r => some r | none => t.raw_text
    status := u.status.getD t.status
    due_at := to_epoch u.due_at
    source := match u.source with | some v => some v | none => t.source
    source_agent := match u.source_agent with | some v => some v | none => t.source_agent
    extra := match u.extra with | some e => some e | none => t.extra
    recurrence := match u.recurrence with | some v => some v | none => t.recurrence
    person_id := match u.person_id with | some v => some v | none => t.person_id
    notes := match u.notes with | some v => some v | none => t.notes
    updated_at := now
    last_modified := if u.touch_last_modified then now else t.last_modified }

/-- `MemorySQLite.update_task`: `UPDATE tasks SET ... WHERE id=?`; the
returned Bool is `cur.rowcount > 0`. -/
def update_task (s : Store) (now : Int) (task_id : Nat) (u : UpdateFields) :
    Store × Bool :=
  (⟨s.tasks.map (fun t => if t.id = task_id then update_task_row now u t else t),
    s.next_id⟩,
   s.tasks.any (fun t => t.id = task_id))

/-- `MemorySQLite.get_task`: `SELECT ... WHERE id=?` (first row). -/
def get_task (s : Store) (task_id : Nat) : Option Task :=
  s.tasks.find? (fun t => t.id = task_id)

/-- `MemorySQLite.delete_task`. -/
def delete_task (s : Store) (task_id : Nat) : Store × Bool :=
  (⟨s.tasks.filter (fun t => ¬ t.id = task_id), s.next_id⟩,
   s.tasks.any (fun t => t.id = task_id))

/-- `MemorySQLite.list_tasks` restricted to the form used by `sync_pull`:
`list_tasks(user_id=user_id, status=None, limit=None, offset=0)`. -/
def list_tasks_of_user (s : Store) (user_id : Nat) : List Task :=
  s.tasks.filter (fun t => t.user_id = user_id)

/-- `MemorySQLite.mark_task_locally_modified`: sets `updated_at` and
`last_modified` to now. -/
def mark_task_locally_modified (s : Store) (now : Int) (task_id : Nat) :
    Store × Bool :=
  (⟨s.tasks.map (fun t =>
      if t.id = task_id then { t with updated_at := now, last_modified := now }
      else t), s.next_id⟩,
   s.tasks.any (fun t => t.id = task_id))

/-- `MemorySQLite.set_task_calendar_link`: writes the four link columns and
`updated_at`; `last_modified` is not touched. -/
def set_task_calendar_link (s : Store) (now : Int) (task_id : Nat)
    (calendar_id : Option String) (event_id : Option String)
    (event_etag : Option String := none)
    (google_updated_at : Option Int := none) : Store × Bool :=
  (⟨s.tasks.map (fun t =>
      if t.id = task_id then
        { t with calendar_id := calendar_id, calendar_event_id := event_id
                 calendar_event_etag := event_etag
                 google_updated_at := to_epoch google_updated_at
                 updated_at := now }
      else t), s.next_id⟩,
   s.tasks.any (fun t => t.id = task_id))

/-- `MemorySQLite.clear_task_calendar_link`: NULLs the four link columns
and sets `updated_at`; `last_modified` is not touched. -/
def clear_task_calendar_link (s : Store) (now : Int) (task_id : Nat) :
    Store × Bool :=
  (⟨s.tasks.map (fun t =>
      if t.id = task_id then
        { t with calendar_id := none, calendar_event_id := none
                 calendar_event_etag := none, google_updated_at := none
                 updated_at := now }
      else t), s.next_id⟩,
   s.tasks.any (fun t => t.id = task_id))

/-! ### Python string primitives

Python's `.strip()`, slicing, `.upper()`, `.lower()` and `.startswith()`
are modelled on the character list of the string (Python slices and
iterates by code point).  They are written over `String.data` so that
they evaluate inside the kernel. -/

/-- Python `str.strip()`. -/
def pyStrip (s : String) : String :=
  ⟨((s.data.dropWhile Char.isWhitespace).reverse.dropWhile
      Char.isWhitespace).reverse⟩

/-- Python `s[:n]`. -/
def pyTake (s : String) (n : Nat) : String := ⟨s.data.take n⟩

/-- Python `str.upper()` (ASCII fragment). -/
def pyUpper (s : String) : String := ⟨s.data.map Char.toUpper⟩

/-- Python `str.lower()` (ASCII fragment). -/
def pyLower (s : String) : String := ⟨s.data.map Char.toLower⟩

/-- Python `str.startswith(pre)`. -/
def pyStartsWith (s pre : String) : Bool := pre.data.isPrefixOf s.data

/-! ### Calendar adapter — google_calendar.py -/

/-- `GOOGLE_DEFAULT_CALENDAR_ID` (config default `"primary"`). -/
def GOOGLE_DEFAULT_CALENDAR_ID : String := "primary"

/-- `_EVENT_DEFAULT_DURATION_MIN = 60`. -/
def EVENT_DEFAULT_DURATION_MIN : Int := 60

/-- The Python idiom `x or GOOGLE_DEFAULT_CALENDAR_ID` (an absent or empty
calendar id falls back to the default calendar). -/
def default_calendar (c : Option String) : String :=
  match c with
  | some c => if c = "" then GOOGLE_DEFAULT_CALENDAR_ID else c
  | none => GOOGLE_DEFAULT_CALENDAR_ID

/-- dataclass `_GEventLink`. -/
structure GEventLink where
  calendar_id : String
  event_id : String
  etag : Option String
  google_updated_epoch : Option Int
  deriving Repr, DecidableEq

/-- Local calendar day of an epoch under a fixed UTC offset `off`
(models `datetime.fromtimestamp(epoch, tz).date()`). -/
def epochToDay (off epoch : Int) : Int := (epoch + off).fdiv 86400

/-- Epoch of local midnight of day `d` (models
`datetime(dt.year, dt.month, dt.day, tzinfo=tz).timestamp()` in `sync_pull`). -/
def dayToEpoch (off d : Int) : Int := d * 86400 - off

/-- `GoogleCalendarClient._get_gcal_link`: reads `extra["gcal"]`; returns
`None` unless a truthy `event_id` is present; the calendar id falls back
to the default calendar. -/
def get_gcal_link (extra : Option Extra) : Option GEventLink :=
  match extra with
  | none => none
  | some e =>
    match e.gcal with
    | none => none
    | some g =>
      match g.event_id with
      | none => none
      | some ev =>
        if ev = "" then none
        else some
          { calendar_id := default_calendar g.calendar_id
            event_id := ev, etag := g.etag
            google_updated_epoch := g.updated_epoch }

/-- `GoogleCalendarClient._set_gcal_link`: copies `extra` and overwrites
its `gcal` entry. -/
def set_gcal_link (extra : Option Extra) (calendar_id event_id : String)
    (etag : Option String) (updated_epoch : Option Int) : Extra :=
  { extra.getD {} with
    gcal := some ⟨some calendar_id, some event_id, etag, updated_epoch⟩ }

/-- `_parse_recurrence`. -/
def parse_recurrence (recurrence : Option String) : Option (List String) :=
  match recurrence with
  | none => none
  | some rec0 =>
    if rec0 = "" then none
    else
      let r := pyUpper (pyStrip rec0)
      if pyStartsWith r "RRULE:" then some [r]
      else if r = "YEARLY" then some ["RRULE:FREQ=YEARLY"]
      else if r = "MONTHLY" then some ["RRULE:FREQ=MONTHLY"]
      else if r = "WEEKLY" then some ["RRULE:FREQ=WEEKLY"]
      else if r = "DAILY" then some ["RRULE:FREQ=DAILY"]
      else
        let rl := pyLower (pyStrip rec0)
        if rl = "yearly" ∨ rl = "annually" then some ["RRULE:FREQ=YEARLY"]
        else if rl = "monthly" then some ["RRULE:FREQ=MONTHLY"]
        else if rl = "weekly" then some ["RRULE:FREQ=WEEKLY"]
        else if rl = "daily" then some ["RRULE:FREQ=DAILY"]
        else none

/-- A `start`/`end` value of a Google event body: either date-only
(a local calendar day) or a timed value (epoch plus timezone name). -/
inductive GTime where
  | date (day : Int)
  | dateTime (epoch : Int) (timeZone : String)
  deriving Repr, DecidableEq

/-- The event body built by `_build_event_body` (`stop` is the body's
`"end"` key; `end` is reserved in Lean). -/
structure EventBody where
  summary : String
  start : GTime
  stop : GTime
  reminder_minutes : List Int
  recurrence : Option (List String)
  description : Option String
  deriving Repr, DecidableEq

/-- `GoogleCalendarClient._build_event_body`. -/
def build_event_body (now off : Int) (tz : String) (t : Task) : EventBody :=
  let extra := t.extra.getD {}
  let all_day := extra.all_day || extra.is_birthday
  let summary := pyTake (pyStrip (if t.text = "" then "Event" else t.text)) 255
  let description : Option String :=
    match t.raw_text with
    | none => none
    | some r =>
      if r = "" then none
      else
        let d := pyStrip r
        if d = "" then none else some d
  let times : GTime × GTime :=
    match t.due_at with
    | none => (GTime.date (epochToDay off now), GTime.date (epochToDay off now + 1))
    | some due =>
      if all_day then
        (GTime.date (epochToDay off due), GTime.date (epochToDay off due + 1))
      else
        (GTime.dateTime due tz,
         GTime.dateTime (due + EVENT_DEFAULT_DURATION_MIN * 60) tz)
  { summary := summary, start := times.1, stop := times.2
    reminder_minutes := [60]
    recurrence := parse_recurrence t.recurrence
    description := description }

/-- A remote Google event as stored by the (modelled) server. -/
structure RemoteEvent where
  calendar_id : String
  id : String
  etag : String
  updated : Option Int
  body : EventBody
  deriving Repr, DecidableEq

/-- The remote calendar account; `counter` feeds fresh server-side ids
and etags. -/
structure Remote where
  events : List RemoteEvent
  counter : Nat
  deriving Repr, DecidableEq

/-- Local store plus remote calendar. -/
structure World where
  store : Store
  remote : Remote
  deriving Repr, DecidableEq

def freshEventId (c : Nat) : String := "gev" ++ Nat.repr c

def freshEtag (c : Nat) : String := "etag" ++ Nat.repr c

/-- `GoogleCalendarClient._safe_update_task`: calls
`db.update_task(task_id, **fields)`.  `MemorySQLite.update_task` exists, so
the `AttributeError` branch never fires.  Crucially the call never passes
`touch_last_modified`, so the store default `touch_last_modified=True`
applies to every such write. -/
def safe_update_task (s : Store) (now : Int) (task_id : Nat)
    (u : UpdateFields) : Store :=
  (update_task s now task_id u).1

/-- `GoogleCalendarClient.create_event`: builds the body, inserts a remote
event (the modelled server assigns a fresh id and etag and stamps
`updated = now`), writes the link into `extra` via `_safe_update_task`,
and returns the event id. -/
def create_event (w : World) (now off : Int) (tz : String) (task : Task) :
    World × String :=
  let calendar_id := default_calendar task.calendar_id
  let body := build_event_body now off tz task
  let event_id := freshEventId w.remote.counter
  let etag := freshEtag w.remote.counter
  let remote' : Remote :=
    ⟨w.remote.events ++ [⟨calendar_id, event_id, etag, some now, body⟩],
     w.remote.counter + 1⟩
  let new_extra := set_gcal_link task.extra calendar_id event_id (some etag) (some now)
  let store' := safe_update_task w.store now task.id { extra := some new_extra }
  (⟨store', remote'⟩, event_id)

/-- `events().patch(...)` on the modelled server: fails (the client call
raises) when no such event exists; otherwise replaces the body and
returns the new etag and updated stamp. -/
def patch_event (r : Remote) (now : Int) (calendar_id event_id : String)
    (body : EventBody) : Option (Remote × String × Option Int) :=
  if r.events.any (fun e => e.calendar_id = calendar_id ∧ e.id = event_id) then
    let etag := freshEtag r.counter
    some (⟨r.events.map (fun e =>
            if e.calendar_id = calendar_id ∧ e.id = event_id then
              { e with etag := etag, updated := some now, body := body }
            else e),
           r.counter + 1⟩, etag, some now)
  else none

/-- `events().delete(...)` on the modelled server. -/
def remote_delete (r : Remote) (calendar_id event_id : String) : Remote :=
  ⟨r.events.filter (fun e => ¬ (e.calendar_id = calendar_id ∧ e.id = event_id)),
   r.counter⟩

/-- `GoogleCalendarClient.update_event`: without a link it degrades to
`create_event`; with a link it patches the remote event and refreshes the
stored etag/updated stamp.  `none` models a raised remote error. -/
def update_event (w : World) (now off : Int) (tz : String) (task : Task) :
    Option World :=
  match get_gcal_link task.extra with
  | none => some (create_event w now off tz task).1
  | some link =>
    let body := build_event_body now off tz task
    match patch_event w.remote now link.calendar_id link.event_id body with
    | none => none
    | some (remote', etag, upd) =>
      let new_extra :=
        set_gcal_link task.extra link.calendar_id link.event_id (some etag) upd
      some ⟨safe_update_task w.store now task.id { extra := some new_extra },
            remote'⟩

/-- `GoogleCalendarClient.delete_event`: no link — no-op; otherwise the
remote delete runs inside `try/except Exception: pass`
(`remote_delete_fails` selects the failing run; either way execution
continues) and `gcal` is popped from `extra` via `_safe_update_task`. -/
def delete_event (w : World) (now : Int) (remote_delete_fails : Bool)
    (task : Task) : World :=
  match get_gcal_link task.extra with
  | none => w
  | some link =>
    let remote' :=
      if remote_delete_fails then w.remote
      else remote_delete w.remote link.calendar_id link.event_id
    let extra0 := task.extra.getD {}
    if extra0.gcal.isSome then
      ⟨safe_update_task w.store now task.id
         { extra := some { extra0 with gcal := none } }, remote'⟩
    else ⟨w.store, remote'⟩

/-- One iteration of the `/reset_tasks` loop (bot/commands/tasks.py):
`delete_event` runs only when Google is connected and the task's
`calendar_event_id` column is truthy; local `delete_task` runs regardless,
and a remote failure is caught and logged. -/
def reset_tasks_item (w : World) (now : Int)
    (is_connected remote_delete_fails : Bool) (t : Task) : World :=
  let w1 :=
    if is_connected ∧ ¬ (t.calendar_event_id.getD "") = "" then
      delete_event w now remote_delete_fails t
    else w
  ⟨(delete_task w1.store t.id).1, w1.remote⟩

/-! ### Pull sync — google_calendar.py `sync_pull` -/

/-- A remote event as consumed by `sync_pull` (fields read off the JSON
item; `start_date` is the local day parsed from a `YYYY-MM-DD` value). -/
structure PullEvent where
  status : Option String
  summary : Option String
  description : Option String
  start_dateTime : Option Int
  start_date : Option Int
  updated : Option Int
  id : Option String
  etag : Option String
  deriving Repr, DecidableEq

/-- The `start` dispatch of `sync_pull`: a `dateTime` gives a timed due
epoch, a bare `date` gives local midnight and the all-day flag, anything
else skips the event. -/
def pull_event_start (off : Int) (ev : PullEvent) : Option (Int × Bool) :=
  match ev.start_dateTime with
  | some e => some (e, false)
  | none =>
    match ev.start_date with
    | some d => some (dayToEpoch off d, true)
    | none => none

/-- `_find_local_by_event_id` over the local cache list. -/
def find_local_by_event_id (cache : List Task) (ev_id : Option String) :
    Option Task :=
  cache.find? (fun t =>
    match get_gcal_link t.extra, ev_id with
    | some l, some i => l.event_id = i
    | _, _ => false)

/-- Accumulator of the `sync_pull` event loop: the store, the `local`
task-list snapshot (imported tasks are appended to it; updated tasks are
not refreshed in it), and the result id lists. -/
structure PullState where
  store : Store
  cache : List Task
  imported : List Nat
  updated : List Nat
  deriving Repr, DecidableEq

/-- The body of `sync_pull`'s `for ev in events` loop for one event. -/
def sync_pull_step (off now : Int) (user_id : Nat) (st : PullState)
    (ev : PullEvent) : PullState :=
  if ev.status = some "cancelled" then st
  else
    let summary := pyStrip
      (match ev.summary with
       | some s => if s = "" then "Событие" else s
       | none => "Событие")
    let description := pyStrip (ev.description.getD "")
    match pull_event_start off ev with
    | none => st
    | some (due_epoch, all_day) =>
      let link_payload : GcalPayload :=
        ⟨some GOOGLE_DEFAULT_CALENDAR_ID, ev.id, ev.etag, ev.updated⟩
      match find_local_by_event_id st.cache ev.id with
      | none =>
        let extra : Extra := { gcal := some link_payload, all_day := all_day }
        let res := add_task st.store now user_id summary
          (some (if description = "" then summary else description))
          (some due_epoch) "open" none none (some extra) none none none
        { store := res.1
          cache := st.cache ++ (get_task res.1 res.2).toList
          imported := st.imported ++ [res.2]
          updated := st.updated }
      | some t =>
        let base_extra := t.extra.getD {}
        let new_extra : Extra :=
          { base_extra with gcal := some link_payload
                            all_day := base_extra.all_day || all_day }
        let cond_text := ¬ summary = "" ∧ ¬ summary = t.text
        let cond_raw := ¬ description = "" ∧ ¬ description = t.raw_text.getD ""
        let cond_due := ¬ due_epoch = 0 ∧ ¬ due_epoch = t.due_at.getD 0
        let new_text := if cond_text then summary else t.text
        let new_raw := if cond_raw then some description else t.raw_text
        let new_due := if cond_due then some due_epoch else t.due_at
        if cond_text ∨ cond_raw ∨ cond_due then
          { store := safe_update_task st.store now t.id
              { text := some new_text, raw_text := new_raw
                due_at := new_due, extra := some new_extra }
            cache := st.cache
            imported := st.imported
            updated := st.updated ++ [t.id] }
        else
          { store := safe_update_task st.store now t.id { extra := some new_extra }
            cache := st.cache
            imported := st.imported
            updated := st.updated }

/-- `GoogleCalendarClient.sync_pull` over a given list of remote events
(the HTTP listing and the connected-check are I/O and sit outside the
model).  Follows the code: snapshot the user's tasks, then fold the
per-event step. -/
def sync_pull (s : Store) (off now : Int) (user_id : Nat)
    (events : List PullEvent) : PullState :=
  events.foldl (sync_pull_step off now user_id)
    ⟨s, list_tasks_of_user s user_id, [], []⟩

/-! ### Reminder scheduling — scheduler/jobs.py `run_google_pull_and_schedule` -/

/-- The APScheduler job id `f"reminder:{user_id}:{task_id}"`. -/
def reminder_id (user_id task_id : Nat) : String :=
  "reminder:" ++ Nat.repr user_id ++ ":" ++ Nat.repr task_id

/-- A scheduled one-shot job: its string id and its run date (epoch). -/
structure Job where
  id : String
  run_at : Int
  deriving Repr, DecidableEq

/-- `scheduler.add_job(..., id=..., replace_existing=True)`: any pending
job with the same id is replaced. -/
def add_job_replace (jobs : List Job) (j : Job) : List Job :=
  (jobs.filter (fun k => ¬ k.id = j.id)) ++ [j]

/-- The per-task body of the reminder loop in
`run_google_pull_and_schedule`: skip when the task is missing, its
`due_at` is falsy (absent or 0), it is flagged all-day, or
`due_at - 3600 <= now`; otherwise produce the one-shot job at
`due_at - 3600`. -/
def reminder_job_for (now : Int) (user_id : Nat) (t : Option Task) :
    Option Job :=
  match t with
  | none => none
  | some t =>
    match t.due_at with
    | none => none
    | some due =>
      if due = 0 then none
      else if (t.extra.getD {}).all_day then none
      else
        let when_epoch := due - 3600
        if when_epoch ≤ now then none
        else some ⟨reminder_id user_id t.id, when_epoch⟩

/-- The reminder loop of `run_google_pull_and_schedule` over the deduped
affected ids (`list(set(imported + updated))`), re-reading each task from
the store. -/
def schedule_reminders (s : Store) (now : Int) (user_id : Nat)
    (affected : List Nat) (jobs : List Job) : List Job :=
  affected.foldl (fun js tid =>
    match reminder_job_for now user_id (get_task s tid) with
    | none => js
    | some j => add_job_replace js j) jobs

/-- Count of pending jobs carrying a given id. -/
def count_jobs (jobs : List Job) (jid : String) : Nat :=
  (jobs.filter (fun k => k.id = jid)).length

/-! ### Credential vault — core/secure_tokens.py and the oauth_tokens table

The Fernet primitive and the JSON (de)serialiser are external libraries;
they enter the model as interfaces.  `dec b = none` models
`InvalidToken`; `loads s = none` models a JSON parse error.  The laws the
libraries actually satisfy (`dec (enc s) = some s`, ciphertexts are
nonempty, `loads (dumps d) = some d`) appear as hypotheses of the
theorems below. -/

structure CryptoScheme where
  enc : String → String
  dec : String → Option String

structure JsonCodec (α : Type) where
  dumps : α → String
  loads : String → Option α
  empty : α

/-- `encrypt_dict`: dump to JSON, then Fernet-encrypt. -/
def encrypt_dict {α : Type} (C : CryptoScheme) (J : JsonCodec α) (d : α) :
    String :=
  C.enc (J.dumps d)

/-- `decrypt_dict`: empty blob gives `{}`; otherwise try Fernet, and on
`InvalidToken` fall back to parsing the blob as legacy plaintext JSON;
`none` models a raised exception. -/
def decrypt_dict {α : Type} (C : CryptoScheme) (J : JsonCodec α)
    (blob : String) : Option α :=
  if blob = "" then some J.empty
  else
    match C.dec blob with
    | some plain => J.loads plain
    | none => J.loads blob

/-- A row of the `oauth_tokens` table (`token_json` is the stored blob). -/
structure OAuthRow where
  user_id : String
  provider : String
  token_json : String
  expiry : Option Int
  scopes : Option String
  created_at : Int
  updated_at : Int
  deriving Repr, DecidableEq

/-- The dataclass `OAuthToken` returned by `get_oauth_token`. -/
structure OAuthToken (α : Type) where
  user_id : String
  provider : String
  token_json : α
  expiry : Option Int
  scopes : Option String
  created_at : Int
  updated_at : Int

/-- `MemorySQLite.upsert_oauth_token`: encrypts the dict and upserts on
the `(user_id, provider)` key. -/
def upsert_oauth_token {α : Type} (C : CryptoScheme) (J : JsonCodec α)
    (table : List OAuthRow) (now : Int) (user_id provider : String)
    (token_json : α) (expiry : Option Int := none)
    (scopes : Option (List String) := none) : List OAuthRow :=
  let scopes_str := scopes.map (String.intercalate ",")
  let blob := encrypt_dict C J token_json
  if table.any (fun r => r.user_id = user_id ∧ r.provider = provider) then
    table.map (fun r =>
      if r.user_id = user_id ∧ r.provider = provider then
        { r with token_json := blob, expiry := to_epoch expiry
                 scopes := scopes_str, updated_at := now }
      else r)
  else
    table ++ [⟨user_id, provider, blob, to_epoch expiry, scopes_str, now, now⟩]

/-- `MemorySQLite.get_oauth_token`: outer `none` models a raised
decryption error, `some none` models "no row", `some (some tok)` a
successful read (`decrypt_dict(r[2]) if r[2] else {}`). -/
def get_oauth_token {α : Type} (C : CryptoScheme) (J : JsonCodec α)
    (table : List OAuthRow) (user_id provider : String) :
    Option (Option (OAuthToken α)) :=
  match table.find? (fun r => r.user_id = user_id ∧ r.provider = provider) with
  | none => some none
  | some r =>
    let dict? :=
      if r.token_json = "" then some J.empty
      else decrypt_dict C J r.token_json
    match dict? with
    | none => none
    | some d =>
      some (some ⟨r.user_id, r.provider, d, r.expiry, r.scopes,
                  r.created_at, r.updated_at⟩)

/-! ### Store operation traces (for the watermark invariant) -/

/-- The store operations named by the watermark-monotonicity claim:
`update_task` (with or without `touch_last_modified`),
`mark_task_locally_modified`, and the calendar-link column writes.  None
of them insert or delete rows. -/
inductive StoreOp where
  | update (task_id : Nat) (u : UpdateFields)
  | mark (task_id : Nat)
  | setLink (task_id : Nat) (calendar_id event_id etag : Option String)
      (gupd : Option Int)
  | clearLink (task_id : Nat)
  deriving Repr, DecidableEq

/-- Apply one timed operation (the `Int` is the wall clock the Python code
reads via `_now_epoch`). -/
def apply_timed_op (s : Store) (p : Int × StoreOp) : Store :=
  match p.2 with
  | .update tid u => (update_task s p.1 tid u).1
  | .mark tid => (mark_task_locally_modified s p.1 tid).1
  | .setLink tid cal ev etag gupd =>
      (set_task_calendar_link s p.1 tid cal ev etag gupd).1
  | .clearLink tid => (clear_task_calendar_link s p.1 tid).1

/-- Run a trace of timed store operations. -/
def run_ops (s : Store) (ops : List (Int × StoreOp)) : Store :=
  ops.foldl apply_timed_op s

/-- All rows' watermarks are at most `c`. -/
def all_lm_le (s : Store) (c : Int) : Prop :=
  ∀ t ∈ s.tasks, t.last_modified ≤ c

/-! ### Reachable store states and the link-exclusivity predicate -/

/-- Store states reachable from a fresh database through the public store
operations of `MemorySQLite`. -/
inductive Reachable : Store → Prop where
  | empty : Reachable ⟨[], 1⟩
  | add (s : Store) (now : Int) (user_id : Nat) (text : String)
      (raw_text : Option String) (due_at : Option Int) (status : String)
      (source source_agent : Option String) (extra : Option Extra)
      (recurrence : Option String) (person_id : Option Int)
      (notes : Option String) :
      Reachable s →
      Reachable (add_task s now user_id text raw_text due_at status source
        source_agent extra recurrence person_id notes).1
  | update (s : Store) (now : Int) (task_id : Nat) (u : UpdateFields) :
      Reachable s → Reachable (update_task s now task_id u).1
  | mark (s : Store) (now : Int) (task_id : Nat) :
      Reachable s → Reachable (mark_task_locally_modified s now task_id).1
  | setLink (s : Store) (now : Int) (task_id : Nat)
      (calendar_id event_id event_etag : Option String)
      (google_updated_at : Option Int) :
      Reachable s →
      Reachable (set_task_calendar_link s now task_id calendar_id event_id
        event_etag google_updated_at).1
  | clearLink (s : Store) (now : Int) (task_id : Nat) :
      Reachable s → Reachable (clear_task_calendar_link s now task_id).1
  | delete (s : Store) (task_id : Nat) :
      Reachable s → Reachable (delete_task s task_id).1

/-- The link-exclusivity property claimed for the store: distinct tasks of
one user with non-null links never share `(calendar_id, calendar_event_id)`. -/
def link_exclusive (s : Store) : Prop :=
  ∀ t1 ∈ s.tasks, ∀ t2 ∈ s.tasks,
    t1.id ≠ t2.id → t1.user_id = t2.user_id →
    t1.calendar_event_id.isSome → t2.calendar_event_id.isSome →
    (t1.calendar_id, t1.calendar_event_id) ≠ (t2.calendar_id, t2.calendar_event_id)

/-! ### Helpers for the proofs -/

/-- Decimal value of a digit-character list (inverse of `Nat.toDigits 10`,
used to prove that distinct task ids give distinct reminder job ids). -/
def evalDigits (l : List Char) : Nat :=
  l.foldl (fun acc c => acc * 10 + (c.toNat - 48)) 0

/-- Compact task builder for the concrete instances below. -/
def mkTask (id user : Nat) (text : String) (due : Option Int) (lm : Int)
    (extra : Option Extra := none) (cal : Option String := none)
    (cal_ev : Option String := none) : Task :=
  { id := id, user_id := user, text := text, raw_text := none
    status := "open", due_at := due, created_at := lm, updated_at := lm
    source := none, source_agent := none, extra := extra
    calendar_id := cal, calendar_event_id := cal_ev
    calendar_event_etag := none, google_updated_at := none
    recurrence := none, person_id := none, notes := none
    last_modified := lm }

/-- Store reached by adding two tasks of user 7 and pointing both of their
calendar links at the same remote event via `set_task_calendar_link`. -/
def duplicate_link_store : Store :=
  (set_task_calendar_link
    (set_task_calendar_link
      (add_task (add_task ⟨[], 1⟩ 10 7 "a" none none "open" none none none
          none none none).1
        11 7 "b" none none "open" none none none none none none).1
      12 1 (some "cal") (some "ev") none none).1
    13 2 (some "cal") (some "ev") none none).1

/-! ## Theorems -/

/-- `find?` by id commutes with mapping an id-preserving function. -/
theorem find_id_map (l : List Task) (g : Task → Task)
    (hg : ∀ t, (g t).id = t.id) (tid : Nat) :
    (l.map g).find? (fun t => t.id = tid) =
      (l.find? (fun t => t.id = tid)).map g := by
  induction l with
  | nil => rfl
  | cons a l ih =>
    by_cases h : a.id = tid
    · simp [List.find?, hg, h]
    · simp [List.find?, hg, h, ih]

/-- `filter` by id commutes with mapping an id-preserving function. -/
theorem filter_id_map (l : List Task) (g : Task → Task)
    (hg : ∀ t, (g t).id = t.id) (tid : Nat) :
    (l.map g).filter (fun t => t.id = tid) =
      (l.filter (fun t => t.id = tid)).map g := by
  induction l with
  | nil => rfl
  | cons a l ih =>
    by_cases h : a.id = tid
    · simp [List.filter, hg, h, ih]
    · simp [List.filter, hg, h, ih]

theorem update_task_row_id (now : Int) (u : UpdateFields) (t : Task) :
    (update_task_row now u t).id = t.id := rfl

/-- Reading a row after `update_task` sees the row transformer applied to
the old row. -/
theorem get_task_update (s : Store) (now : Int) (tid' : Nat)
    (u : UpdateFields) (tid : Nat) :
    get_task (update_task s now tid' u).1 tid =
      (get_task s tid).map
        (fun t => if t.id = tid' then update_task_row now u t else t) := by
  unfold get_task update_task
  exact find_id_map _ _ (fun t => by split <;> rfl) tid

theorem get_task_id (s : Store) (tid : Nat) (t : Task)
    (h : get_task s tid = some t) : t.id = tid := by
  unfold get_task at h
  simpa using List.find?_some h

/-- Claim C6: an `update_task` call that omits `due_at` (or passes `None`)
unconditionally overwrites the row's `due_at` column with NULL while
leaving the other omitted fields unchanged; in particular, marking a task
done via `update_task(id, status="done")` erases the task's due date. -/
theorem C6_update_omits_due_at_nulls_it
    (s : Store) (now : Int) (tid : Nat) (u : UpdateFields) (t : Task)
    (hdue : u.due_at = none) (ht : get_task s tid = some t) :
    ∃ t', get_task (update_task s now tid u).1 tid = some t' ∧
      t'.due_at = none ∧
      (u.text = none → t'.text = t.text) ∧
      (u.raw_text = none → t'.raw_text = t.raw_text) ∧
      (u.status = none → t'.status = t.status) ∧
      (u.source = none → t'.source = t.source) ∧
      (u.source_agent = none → t'.source_agent = t.source_agent) ∧
      (u.extra = none → t'.extra = t.extra) ∧
      (u.recurrence = none → t'.recurrence = t.recurrence) ∧
      (u.person_id = none → t'.person_id = t.person_id) ∧
      (u.notes = none → t'.notes = t.notes) ∧
      (u.status = some "done" → t'.status = "done") := by
  have hid : t.id = tid := get_task_id s tid t ht
  refine ⟨update_task_row now u t, ?_, ?_, ?_, ?_, ?_, ?_, ?_, ?_, ?_, ?_, ?_, ?_⟩
  · rw [get_task_update, ht]
    simp [hid]
  · simp [update_task_row, hdue, to_epoch]
  · intro h; simp [update_task_row, h]
  · intro h; simp [update_task_row, h]
  · intro h; simp [update_task_row, h]
  · intro h; simp [update_task_row, h]
  · intro h; simp [update_task_row, h]
  · intro h; simp [update_task_row, h]
  · intro h; simp [update_task_row, h]
  · intro h; simp [update_task_row, h]
  · intro h; simp [update_task_row, h]
  · intro h; simp [update_task_row, h]

/-- Witness for C6 at a concrete store: completing task 1 erases its due
date but keeps its text. -/
theorem C6_witness :
    ∃ t', get_task (update_task ⟨[mkTask 1 7 "call mom" (some 1000) 50], 2⟩
        60 1 { status := some "done" }).1 1 = some t' ∧
      t'.due_at = none ∧ t'.status = "done" ∧ t'.text = "call mom" := by
  obtain ⟨t', h1, h2, h3, _, _, _, _, _, _, _, _, h12⟩ :=
    C6_update_omits_due_at_nulls_it ⟨[mkTask 1 7 "call mom" (some 1000) 50], 2⟩
      60 1 { status := some "done" } (mkTask 1 7 "call mom" (some 1000) 50)
      rfl (by decide)
  exact ⟨t', h1, h2, h12 rfl, h3 rfl⟩

/-- Claim C7: the event body built for a push is date-only with the end
day exactly one after the start day for all-day/birthday tasks, and a
timed event from `due_at` to `due_at + 60` minutes otherwise. -/
theorem C7_event_body_shape (now off : Int) (tz : String) (t : Task) :
    (((t.extra.getD {}).all_day || (t.extra.getD {}).is_birthday) = true →
      ∃ d, (build_event_body now off tz t).start = GTime.date d ∧
        (build_event_body now off tz t).stop = GTime.date (d + 1)) ∧
    (∀ due, t.due_at = some due →
      ((t.extra.getD {}).all_day || (t.extra.getD {}).is_birthday) = false →
      (build_event_body now off tz t).start = GTime.dateTime due tz ∧
      (build_event_body now off tz t).stop = GTime.dateTime (due + 3600) tz) := by
  constructor
  · intro hall
    rcases hdue : t.due_at with _ | due
    · exact ⟨epochToDay off now, by simp [build_event_body, hdue],
        by simp [build_event_body, hdue]⟩
    · exact ⟨epochToDay off due, by simp [build_event_body, hdue, hall],
        by simp [build_event_body, hdue, hall]⟩
  · intro due hdue hall
    constructor
    · simp [build_event_body, hdue, hall]
    · have : EVENT_DEFAULT_DURATION_MIN * 60 = 3600 := by norm_num [EVENT_DEFAULT_DURATION_MIN]
      simp [build_event_body, hdue, hall, this]

/-- Witness for C7: a birthday task maps to a one-day date event, and a
timed task due at 5000 maps to a timed event ending at 8600. -/
theorem C7_witness :
    (∃ d, (build_event_body 0 0 "UTC"
        (mkTask 1 7 "bday" (some 500) 0 (some { is_birthday := true }))).start
          = GTime.date d ∧
      (build_event_body 0 0 "UTC"
        (mkTask 1 7 "bday" (some 500) 0 (some { is_birthday := true }))).stop
          = GTime.date (d + 1)) ∧
    ((build_event_body 0 0 "UTC" (mkTask 1 7 "meet" (some 5000) 0)).start
        = GTime.dateTime 5000 "UTC" ∧
     (build_event_body 0 0 "UTC" (mkTask 1 7 "meet" (some 5000) 0)).stop
        = GTime.dateTime 8600 "UTC") := by
  constructor
  · exact (C7_event_body_shape 0 0 "UTC"
      (mkTask 1 7 "bday" (some 500) 0 (some { is_birthday := true }))).1 (by decide)
  · exact (C7_event_body_shape 0 0 "UTC" (mkTask 1 7 "meet" (some 5000) 0)).2
      5000 rfl (by decide)

/-- Claim C1 (refuted — the code contradicts it): the link write-back of
`create_event` goes through `_safe_update_task`, which never passes
`touch_last_modified=False`, so at `now = 200` the watermark of a task
whose `last_modified` was 100 becomes 200; likewise the local update made
by `sync_pull` for a remotely retitled event bumps the watermark to the
pull time.  The claim says both calls leave `last_modified` unchanged. -/
theorem C1_link_writeback_bumps_watermark :
    ((mkTask 1 7 "call" (some 5000) 100).last_modified = 100) ∧
    ((get_task (create_event ⟨⟨[mkTask 1 7 "call" (some 5000) 100], 2⟩, ⟨[], 0⟩⟩
        200 0 "UTC" (mkTask 1 7 "call" (some 5000) 100)).1.store 1).map
      Task.last_modified = some 200) ∧
    ((get_task (sync_pull
        ⟨[mkTask 1 7 "call" (some 5000) 100
            (some { gcal := some ⟨some "primary", some "ev1", none, none⟩ })], 2⟩
        0 200 7
        [{ status := none, summary := some "new title", description := none
           start_dateTime := some 5000, start_date := none
           updated := some 190, id := some "ev1", etag := some "e2" }]).store 1).map
      Task.last_modified = some 200) := by
  refine ⟨rfl, by decide, by decide⟩

theorem get_gcal_link_gcal_isSome (ex : Option Extra) (l : GEventLink)
    (h : get_gcal_link ex = some l) : (ex.getD {}).gcal.isSome = true := by
  rcases ex with _ | e
  · simp [get_gcal_link] at h
  · rcases hg : e.gcal with _ | g
    · simp [get_gcal_link, hg] at h
    · simp [hg]

theorem delete_task_filter (s : Store) (tid : Nat) :
    (delete_task s tid).1.tasks.filter (fun r => r.id = tid) = [] := by
  unfold delete_task
  dsimp only
  rw [List.filter_filter]
  exact List.filter_eq_nil_iff.mpr (fun a _ => by by_cases h : a.id = tid <;> simp [h])

/-- Claim C5: deleting a linked task whose remote delete call fails still
clears the calendar link (the `gcal` entry is popped from `extra`), the
remote error is swallowed (the function returns normally, the remote state
is simply left as it was), and the `/reset_tasks` item step still removes
the local row, leaving zero rows for that task. -/
theorem C5_remote_delete_failure_still_clears
    (w : World) (now : Int) (t : Task) (link : GEventLink)
    (ht : get_task w.store t.id = some t)
    (hlink : get_gcal_link t.extra = some link)
    (hcol : ¬ (t.calendar_event_id.getD "") = "") :
    (∀ t', get_task (delete_event w now true t).store t.id = some t' →
      (t'.extra.getD {}).gcal = none) ∧
    (delete_event w now true t).remote = w.remote ∧
    (reset_tasks_item w now true true t).store.tasks.filter
      (fun r => r.id = t.id) = [] := by
  have hsome := get_gcal_link_gcal_isSome t.extra link hlink
  have hde : delete_event w now true t =
      ⟨safe_update_task w.store now t.id
        { extra := some { t.extra.getD {} with gcal := none } }, w.remote⟩ := by
    simp [delete_event, hlink, hsome]
  refine ⟨?_, ?_, ?_⟩
  · intro t' ht'
    rw [hde] at ht'
    unfold safe_update_task at ht'
    rw [get_task_update, ht] at ht'
    simp at ht'
    rw [← ht']
    simp [update_task_row]
  · rw [hde]
  · unfold reset_tasks_item
    rw [if_pos ⟨rfl, hcol⟩]
    exact delete_task_filter _ _

/-- Witness for C5 at a concrete world with an empty (failing) remote. -/
theorem C5_witness :
    (∀ t', get_task (delete_event
        ⟨⟨[mkTask 1 7 "x" none 0
            (some { gcal := some ⟨some "cal", some "ev", none, none⟩ })
            none (some "ev")], 2⟩, ⟨[], 0⟩⟩ 50 true
        (mkTask 1 7 "x" none 0
          (some { gcal := some ⟨some "cal", some "ev", none, none⟩ })
          none (some "ev"))).store 1 = some t' →
      (t'.extra.getD {}).gcal = none) ∧
    (reset_tasks_item
        ⟨⟨[mkTask 1 7 "x" none 0
            (some { gcal := some ⟨some "cal", some "ev", none, none⟩ })
            none (some "ev")], 2⟩, ⟨[], 0⟩⟩ 50 true true
        (mkTask 1 7 "x" none 0
          (some { gcal := some ⟨some "cal", some "ev", none, none⟩ })
          none (some "ev"))).store.tasks.filter (fun r => r.id = 1) = [] := by
  obtain ⟨h1, _, h3⟩ := C5_remote_delete_failure_still_clears
    ⟨⟨[mkTask 1 7 "x" none 0
        (some { gcal := some ⟨some "cal", some "ev", none, none⟩ })
        none (some "ev")], 2⟩, ⟨[], 0⟩⟩ 50
    (mkTask 1 7 "x" none 0
      (some { gcal := some ⟨some "cal", some "ev", none, none⟩ })
      none (some "ev"))
    ⟨"cal", "ev", none, none⟩ (by decide) (by decide) (by decide)
  exact ⟨h1, h3⟩

/-- Claim C9: `decrypt_dict` inverts `encrypt_dict`, a non-ciphertext blob
that is valid JSON is read as legacy plaintext, and `get_oauth_token`
returns the parsed legacy dict for such a stored blob.  The hypotheses are
the contracts of the Fernet and JSON libraries at the inputs involved. -/
theorem C9_credential_roundtrip_and_fallback {α : Type}
    (C : CryptoScheme) (J : JsonCodec α) (d d' : α) (blob : String)
    (h1 : C.dec (C.enc (J.dumps d)) = some (J.dumps d))
    (h2 : ¬ C.enc (J.dumps d) = "")
    (h3 : J.loads (J.dumps d) = some d)
    (h4 : C.dec blob = none) (h5 : J.loads blob = some d')
    (h6 : ¬ blob = "")
    (table : List OAuthRow) (uid prov : String) (row : OAuthRow)
    (hfind : table.find? (fun r => r.user_id = uid ∧ r.provider = prov) = some row)
    (hrow : row.token_json = blob) :
    decrypt_dict C J (encrypt_dict C J d) = some d ∧
    decrypt_dict C J blob = some d' ∧
    ∃ tok, get_oauth_token C J table uid prov = some (some tok) ∧
      tok.token_json = d' := by
  have hfall : decrypt_dict C J blob = some d' := by
    unfold decrypt_dict
    rw [if_neg h6, h4, h5]
  refine ⟨?_, hfall, ?_⟩
  · unfold decrypt_dict encrypt_dict
    rw [if_neg h2, h1]
    exact h3
  · subst hrow
    unfold get_oauth_token
    rw [hfind]
    simp only [if_neg h6, hfall]
    exact ⟨_, rfl, rfl⟩

/-- Witness for C9 with a toy cipher (prepend `E`) and a toy JSON codec
(prepend `J`) over string-valued dicts: the legacy blob `"Jlegacy"` fails
decryption, parses as JSON, and is returned by `get()`. -/
theorem C9_witness :
    decrypt_dict ⟨fun s => "E" ++ s,
        fun s => match s.data with | 'E' :: rest => some ⟨rest⟩ | _ => none⟩
      ⟨fun d => "J" ++ d,
        fun s => match s.data with | 'J' :: rest => some ⟨rest⟩ | _ => none, ""⟩
      (encrypt_dict ⟨fun s => "E" ++ s,
        fun s => match s.data with | 'E' :: rest => some ⟨rest⟩ | _ => none⟩
      ⟨fun d => "J" ++ d,
        fun s => match s.data with | 'J' :: rest => some ⟨rest⟩ | _ => none, ""⟩
      "tok") = some "tok" ∧
    decrypt_dict ⟨fun s => "E" ++ s,
        fun s => match s.data with | 'E' :: rest => some ⟨rest⟩ | _ => none⟩
      ⟨fun d => "J" ++ d,
        fun s => match s.data with | 'J' :: rest => some ⟨rest⟩ | _ => none, ""⟩
      "Jlegacy" = some "legacy" ∧
    ∃ tok, get_oauth_token ⟨fun s => "E" ++ s,
        fun s => match s.data with | 'E' :: rest => some ⟨rest⟩ | _ => none⟩
      ⟨fun d => "J" ++ d,
        fun s => match s.data with | 'J' :: rest => some ⟨rest⟩ | _ => none, ""⟩
      [⟨"u1", "google_calendar", "Jlegacy", none, none, 5, 5⟩]
      "u1" "google_calendar" = some (some tok) ∧ tok.token_json = "legacy" :=
  C9_credential_roundtrip_and_fallback
    ⟨fun s => "E" ++ s,
      fun s => match s.data with | 'E' :: rest => some ⟨rest⟩ | _ => none⟩
    ⟨fun d => "J" ++ d,
      fun s => match s.data with | 'J' :: rest => some ⟨rest⟩ | _ => none, ""⟩
    "tok" "legacy" "Jlegacy" (by decide) (by decide) (by decide) (by decide)
    (by decide) (by decide)
    [⟨"u1", "google_calendar", "Jlegacy", none, none, 5, 5⟩]
    "u1" "google_calendar" ⟨"u1", "google_calendar", "Jlegacy", none, none, 5, 5⟩
    (by decide) rfl

/-! ### Watermark monotonicity (C3) -/

theorem apply_timed_op_shape (s : Store) (p : Int × StoreOp) :
    ∃ (tid : Nat) (g : Task → Task),
      (apply_timed_op s p).tasks =
        s.tasks.map (fun t => if t.id = tid then g t else t) ∧
      (∀ t, (g t).id = t.id) ∧
      (∀ t, (g t).last_modified = t.last_modified ∨
            (g t).last_modified = p.1) := by
  rcases p with ⟨now, op⟩
  cases op with
  | update tid u =>
    refine ⟨tid, update_task_row now u, rfl, fun t => rfl, fun t => ?_⟩
    by_cases h : u.touch_last_modified = true
    · right; simp [update_task_row, h]
    · left; simp [update_task_row, h]
  | mark tid =>
    exact ⟨tid, _, rfl, fun t => rfl, fun t => Or.inr rfl⟩
  | setLink tid cal ev etag gupd =>
    exact ⟨tid, _, rfl, fun t => rfl, fun t => Or.inl rfl⟩
  | clearLink tid =>
    exact ⟨tid, _, rfl, fun t => rfl, fun t => Or.inl rfl⟩

theorem apply_timed_op_get (s : Store) (p : Int × StoreOp) (tid : Nat)
    (t : Task) (h : get_task s tid = some t) :
    ∃ t', get_task (apply_timed_op s p) tid = some t' ∧
      (t'.last_modified = t.last_modified ∨ t'.last_modified = p.1) := by
  obtain ⟨tid', g, htasks, hid, hlm⟩ := apply_timed_op_shape s p
  have : get_task (apply_timed_op s p) tid =
      (get_task s tid).map (fun t => if t.id = tid' then g t else t) := by
    unfold get_task
    rw [htasks]
    refine find_id_map _ _ (fun t => ?_) tid
    by_cases hc : t.id = tid'
    · rw [if_pos hc]; exact hid t
    · rw [if_neg hc]
  rw [this, h]
  refine ⟨_, rfl, ?_⟩
  beta_reduce
  by_cases hc : t.id = tid'
  · rw [if_pos hc]; exact hlm t
  · rw [if_neg hc]; exact Or.inl rfl

theorem apply_timed_op_all_lm (s : Store) (p : Int × StoreOp) (c : Int)
    (hall : all_lm_le s c) (hc : c ≤ p.1) :
    all_lm_le (apply_timed_op s p) p.1 := by
  obtain ⟨tid', g, htasks, _, hlm⟩ := apply_timed_op_shape s p
  intro t' ht'
  rw [htasks] at ht'
  obtain ⟨t, htm, rfl⟩ := List.mem_map.mp ht'
  by_cases hid : t.id = tid'
  · simp only [hid, if_pos]
    rcases hlm t with h | h
    · rw [h]; exact le_trans (hall t htm) hc
    · rw [h]
  · simp only [if_neg hid]
    exact le_trans (hall t htm) hc

theorem apply_timed_op_all_lm_max (s : Store) (p : Int × StoreOp) (c : Int)
    (hall : all_lm_le s c) :
    all_lm_le (apply_timed_op s p) (max c p.1) := by
  obtain ⟨tid', g, htasks, _, hlm⟩ := apply_timed_op_shape s p
  intro t' ht'
  rw [htasks] at ht'
  obtain ⟨t, htm, rfl⟩ := List.mem_map.mp ht'
  by_cases hid : t.id = tid'
  · simp only [hid, if_pos]
    rcases hlm t with h | h
    · rw [h]; exact le_trans (hall t htm) (le_max_left _ _)
    · rw [h]; exact le_max_right _ _
  · simp only [if_neg hid]
    exact le_trans (hall t htm) (le_max_left _ _)

/-- Watermarks stay bounded by any upper bound of all the clock values. -/
theorem run_ops_bound (ops : List (Int × StoreOp)) (s : Store) (c d : Int)
    (hall : all_lm_le s c) (hcd : c ≤ d)
    (hops : ∀ x ∈ ops.map Prod.fst, x ≤ d) :
    all_lm_le (run_ops s ops) d := by
  induction ops generalizing s c with
  | nil =>
    exact fun t ht => le_trans (hall t ht) hcd
  | cons p rest ih =>
    have hp : p.1 ≤ d := hops p.1 (by simp)
    exact ih (apply_timed_op s p) (max c p.1)
      (apply_timed_op_all_lm_max s p c hall) (max_le hcd hp)
      (fun x hx => hops x (by simp only [List.map_cons, List.mem_cons]; exact Or.inr hx))

/-- Along a trace with non-decreasing clock values, the watermark of an
existing row never decreases. -/
theorem run_ops_mono (ops : List (Int × StoreOp)) (s : Store) (c : Int)
    (tid : Nat) (t : Task) (hall : all_lm_le s c)
    (hch : List.Chain' (· ≤ ·) (c :: ops.map Prod.fst))
    (h : get_task s tid = some t) :
    ∃ t', get_task (run_ops s ops) tid = some t' ∧
      t.last_modified ≤ t'.last_modified := by
  induction ops generalizing s c t with
  | nil => exact ⟨t, h, le_rfl⟩
  | cons p rest ih =>
    have hcp : c ≤ p.1 := by
      have := List.chain'_cons.mp (by simpa using hch)
      exact this.1
    have hch' : List.Chain' (· ≤ ·) (p.1 :: rest.map Prod.fst) := by
      have := List.chain'_cons.mp (by simpa using hch)
      exact this.2
    obtain ⟨t1, ht1, hlm1⟩ := apply_timed_op_get s p tid t h
    have hmem : t ∈ s.tasks := by
      unfold get_task at h
      exact List.mem_of_find?_eq_some h
    have htc : t.last_modified ≤ p.1 := le_trans (hall t hmem) hcp
    have hle1 : t.last_modified ≤ t1.last_modified := by
      rcases hlm1 with h' | h'
      · rw [h']
      · rw [h']; exact htc
    have hall1 : all_lm_le (apply_timed_op s p) p.1 :=
      apply_timed_op_all_lm s p c hall hcp
    obtain ⟨t', ht', hle2⟩ := ih (apply_timed_op s p) p.1 t1 hall1 hch' ht1
    exact ⟨t', ht', le_trans hle1 hle2⟩

/-- Claim C3: `add_task` stamps `last_modified` with the creation time,
and along any trace of store operations (`update_task` with or without
`touch_last_modified`, `mark_task_locally_modified`, link-column writes)
executed at non-decreasing wall-clock times, the task's `last_modified`
never decreases between any two points of its lifetime. -/
theorem C3_watermark_monotonicity
    (s : Store) (c : Int) (user : Nat) (text : String) (rt : Option String)
    (due : Option Int) (stt : String) (src sa : Option String)
    (ex : Option Extra) (rc : Option String) (pid : Option Int)
    (nts : Option String) (pre post : List (Int × StoreOp))
    (hall : all_lm_le s c)
    (hfresh : ∀ t ∈ s.tasks, ¬ t.id = s.next_id)
    (hch : List.Chain' (· ≤ ·) (c :: (pre ++ post).map Prod.fst)) :
    (∀ t0, get_task (add_task s c user text rt due stt src sa ex rc pid nts).1
        (add_task s c user text rt due stt src sa ex rc pid nts).2 = some t0 →
      t0.last_modified = c) ∧
    (∀ t1 t2,
      get_task
        (run_ops (add_task s c user text rt due stt src sa ex rc pid nts).1 pre)
        (add_task s c user text rt due stt src sa ex rc pid nts).2 = some t1 →
      get_task
        (run_ops (add_task s c user text rt due stt src sa ex rc pid nts).1
          (pre ++ post))
        (add_task s c user text rt due stt src sa ex rc pid nts).2 = some t2 →
      t1.last_modified ≤ t2.last_modified) := by
  constructor
  · intro t0 ht0
    unfold add_task get_task at ht0
    rw [List.find?_append] at ht0
    have hnone : s.tasks.find? (fun t => t.id = s.next_id) = none :=
      List.find?_eq_none.mpr (fun t ht => by simpa using hfresh t ht)
    rw [hnone] at ht0
    simp [List.find?] at ht0
    rw [← ht0]
  · intro t1 t2 h1 h2
    have hall0 : all_lm_le (add_task s c user text rt due stt src sa ex rc pid nts).1 c := by
      intro t ht
      unfold add_task at ht
      rcases List.mem_append.mp ht with hm | hm
      · exact hall t hm
      · rcases List.mem_singleton.mp hm with rfl
        exact le_rfl
    rw [List.map_append] at hch
    have hsplit : run_ops (add_task s c user text rt due stt src sa ex rc pid nts).1
        (pre ++ post) =
        run_ops (run_ops (add_task s c user text rt due stt src sa ex rc pid nts).1 pre)
          post := by
      unfold run_ops
      exact List.foldl_append ..
    rw [hsplit] at h2
    cases post with
    | nil =>
      have h2' : get_task
          (run_ops (add_task s c user text rt due stt src sa ex rc pid nts).1 pre)
          (add_task s c user text rt due stt src sa ex rc pid nts).2 = some t2 := h2
      rw [h1] at h2'
      injection h2' with h2'
      rw [h2']
    | cons p rest =>
      have hpair := List.chain'_iff_pairwise.mp hch
      have hc_head : ∀ y ∈ pre.map Prod.fst ++ (p :: rest).map Prod.fst, c ≤ y :=
        fun y hy => List.rel_of_pairwise_cons hpair hy
      have hcp : c ≤ p.1 :=
        hc_head p.1 (List.mem_append_right _ (by simp))
      have hbound : ∀ x ∈ pre.map Prod.fst, x ≤ p.1 := by
        intro x hx
        have hpair2 := List.Pairwise.of_cons hpair
        exact (List.pairwise_append.mp hpair2).2.2 x hx p.1 (by simp)
      have hall_pre :
          all_lm_le (run_ops (add_task s c user text rt due stt src sa ex rc pid nts).1 pre)
            p.1 :=
        run_ops_bound pre _ c p.1 hall0 hcp hbound
      have hch_post : List.Chain' (· ≤ ·) ((p :: rest).map Prod.fst) :=
        hch.suffix ⟨c :: pre.map Prod.fst, by simp⟩
      have hch2 : List.Chain' (· ≤ ·) (p.1 :: (p :: rest).map Prod.fst) := by
        rw [List.map_cons]
        exact List.chain'_cons.mpr ⟨le_rfl, by simpa using hch_post⟩
      obtain ⟨t2', ht2', hle⟩ :=
        run_ops_mono (p :: rest) _ p.1 _ t1 hall_pre hch2 h1
      rw [ht2'] at h2
      injection h2 with h2
      rw [← h2]
      exact hle

/-- Witness for C3: create a task at time 100, mark it modified at 110 and
again at 120; the watermark goes 100 → 110 → 120 and never decreases. -/
theorem C3_witness :
    (mkTask 1 7 "x" none 100).last_modified = 100 ∧
    ({ mkTask 1 7 "x" none 100 with
        updated_at := (110 : Int), last_modified := (110 : Int) }).last_modified ≤
      ({ mkTask 1 7 "x" none 100 with
          updated_at := (120 : Int), last_modified := (120 : Int) }).last_modified := by
  obtain ⟨h1, h2⟩ := C3_watermark_monotonicity ⟨[], 1⟩ 100 7 "x" none none
    "open" none none none none none none
    [(110, .mark 1)] [(120, .mark 1)]
    (fun t ht => by simp at ht) (fun t ht => by simp at ht)
    (by
      simp only [List.map_append, List.map_cons, List.map_nil]
      exact List.chain'_cons.mpr ⟨by norm_num,
        List.chain'_cons.mpr ⟨by norm_num, List.chain'_singleton _⟩⟩)
  refine ⟨h1 _ (by decide), h2 _ _ (by decide) (by decide)⟩

/-! ### Pull never touches status (C8) -/

theorem safe_update_status (s : Store) (now : Int) (tid' : Nat)
    (u : UpdateFields) (tid : Nat) (t : Task) (hu : u.status = none)
    (h : get_task s tid = some t) :
    ∃ t', get_task (safe_update_task s now tid' u) tid = some t' ∧
      t'.status = t.status := by
  unfold safe_update_task
  rw [get_task_update, h]
  refine ⟨_, rfl, ?_⟩
  beta_reduce
  by_cases hc : t.id = tid'
  · rw [if_pos hc]
    simp [update_task_row, hu]
  · rw [if_neg hc]

theorem get_task_add (s : Store) (now : Int) (user : Nat) (text : String)
    (rt : Option String) (due : Option Int) (stt : String)
    (src sa : Option String) (ex : Option Extra) (rc : Option String)
    (pid : Option Int) (nts : Option String) (tid : Nat) (t : Task)
    (h : get_task s tid = some t) :
    get_task (add_task s now user text rt due stt src sa ex rc pid nts).1 tid
      = some t := by
  unfold add_task get_task at *
  rw [List.find?_append, h]
  rfl

theorem sync_pull_step_status (off now : Int) (user : Nat) (st : PullState)
    (ev : PullEvent) (tid : Nat) (t : Task)
    (h : get_task st.store tid = some t) :
    ∃ t', get_task (sync_pull_step off now user st ev).store tid = some t' ∧
      t'.status = t.status := by
  unfold sync_pull_step
  by_cases hcanc : ev.status = some "cancelled"
  · rw [if_pos hcanc]
    exact ⟨t, h, rfl⟩
  · rw [if_neg hcanc]
    rcases hst : pull_event_start off ev with _ | ⟨due, allday⟩
    · simp only [hst]
      exact ⟨t, h, rfl⟩
    · simp only [hst]
      rcases hfind : find_local_by_event_id st.cache ev.id with _ | tloc
      · simp only [hfind]
        exact ⟨t, get_task_add _ _ _ _ _ _ _ _ _ _ _ _ _ tid t h, rfl⟩
      · simp only [hfind]
        split
        · exact safe_update_status _ _ _ _ tid t rfl h
        · exact safe_update_status _ _ _ _ tid t rfl h

/-- Claim C8: a pull never touches the `status` of any task that existed
before it ran (in particular of every matched task), whatever the remote
events contain. -/
theorem C8_pull_preserves_status (s : Store) (off now : Int) (user : Nat)
    (events : List PullEvent) (tid : Nat) (t : Task)
    (h : get_task s tid = some t) :
    ∃ t', get_task (sync_pull s off now user events).store tid = some t' ∧
      t'.status = t.status := by
  suffices H : ∀ (evs : List PullEvent) (st : PullState) (t : Task),
      get_task st.store tid = some t →
      ∃ t', get_task (evs.foldl (sync_pull_step off now user) st).store tid
          = some t' ∧ t'.status = t.status by
    exact H events ⟨s, list_tasks_of_user s user, [], []⟩ t h
  intro evs
  induction evs with
  | nil => exact fun st t h => ⟨t, h, rfl⟩
  | cons e evs ih =>
    intro st t h
    obtain ⟨t1, h1, hs1⟩ := sync_pull_step_status off now user st e tid t h
    obtain ⟨t', h', hs'⟩ := ih _ t1 h1
    exact ⟨t', h', hs'.trans hs1⟩

/-- Witness for C8: a pulled event that retitles and reschedules the
matching done task leaves its status `"done"`. -/
theorem C8_witness :
    ∃ t', get_task (sync_pull
        ⟨[{ mkTask 1 7 "call" (some 5000) 100
              (some { gcal := some ⟨some "primary", some "ev1", none, none⟩ })
            with status := "done" }], 2⟩
        0 200 7
        [{ status := none, summary := some "new title", description := none
           start_dateTime := some 7000, start_date := none
           updated := some 190, id := some "ev1", etag := some "e2" }]).store 1
      = some t' ∧ t'.status = "done" := by
  obtain ⟨t', h', hs⟩ := C8_pull_preserves_status
    ⟨[{ mkTask 1 7 "call" (some 5000) 100
          (some { gcal := some ⟨some "primary", some "ev1", none, none⟩ })
        with status := "done" }], 2⟩
    0 200 7
    [{ status := none, summary := some "new title", description := none
       start_dateTime := some 7000, start_date := none
       updated := some 190, id := some "ev1", etag := some "e2" }]
    1
    ({ mkTask 1 7 "call" (some 5000) 100
        (some { gcal := some ⟨some "primary", some "ev1", none, none⟩ })
      with status := "done" })
    (by decide)
  exact ⟨t', h', hs⟩

/-! ### Decimal representation is injective (job ids `reminder:<user>:<task>`
collide only for equal task ids) -/

theorem toDigitsCore_acc (b fuel : Nat) : ∀ (n : Nat) (ds : List Char),
    Nat.toDigitsCore b fuel n ds = Nat.toDigitsCore b fuel n [] ++ ds := by
  induction fuel with
  | zero => intro n ds; simp [Nat.toDigitsCore]
  | succ fuel ih =>
    intro n ds
    simp only [Nat.toDigitsCore]
    by_cases h : n / b = 0
    · simp [h]
    · simp only [h, if_false]
      rw [ih (n / b) (Nat.digitChar (n % b) :: ds),
        ih (n / b) [Nat.digitChar (n % b)], List.append_assoc]
      rfl

theorem digitChar_val : ∀ d : Nat, d < 10 → (Nat.digitChar d).toNat - 48 = d := by
  decide

theorem evalDigits_append_singleton (l : List Char) (c : Char) :
    evalDigits (l ++ [c]) = evalDigits l * 10 + (c.toNat - 48) := by
  unfold evalDigits
  rw [List.foldl_append]
  rfl

theorem evalDigits_toDigitsCore : ∀ (fuel n : Nat), n < fuel →
    evalDigits (Nat.toDigitsCore 10 fuel n []) = n := by
  intro fuel
  induction fuel with
  | zero => intro n hn; omega
  | succ fuel ih =>
    intro n hn
    simp only [Nat.toDigitsCore]
    by_cases h : n / 10 = 0
    · have hn10 : n < 10 := by omega
      simp only [h, if_true]
      show evalDigits [Nat.digitChar (n % 10)] = n
      have : evalDigits [Nat.digitChar (n % 10)] =
          0 * 10 + ((Nat.digitChar (n % 10)).toNat - 48) := rfl
      rw [this, digitChar_val (n % 10) (Nat.mod_lt _ (by norm_num))]
      omega
    · simp only [h, if_false]
      rw [toDigitsCore_acc, evalDigits_append_singleton]
      have hpos : 0 < n := by
        rcases Nat.eq_zero_or_pos n with h0 | h0
        · exact absurd (by simp [h0]) h
        · exact h0
      have h2 : n / 10 < fuel := by
        have := Nat.div_lt_self hpos (by norm_num : (1 : Nat) < 10)
        omega
      rw [ih (n / 10) h2, digitChar_val (n % 10) (Nat.mod_lt _ (by norm_num))]
      omega

theorem nat_repr_injective (m n : Nat) (h : Nat.repr m = Nat.repr n) :
    m = n := by
  have hd : Nat.toDigits 10 m = Nat.toDigits 10 n := by
    have := congrArg String.data h
    simpa [Nat.repr, List.asString] using this
  have hm := evalDigits_toDigitsCore (m + 1) m (Nat.lt_succ_self m)
  have hn := evalDigits_toDigitsCore (n + 1) n (Nat.lt_succ_self n)
  unfold Nat.toDigits at hd
  rw [← hm, ← hn, hd]

theorem reminder_id_inj (user a b : Nat)
    (h : reminder_id user a = reminder_id user b) : a = b := by
  unfold reminder_id at h
  have hd := congrArg String.data h
  simp only [String.data_append, List.append_assoc] at hd
  have h1 := List.append_cancel_left hd
  have h2 := List.append_cancel_left h1
  have h3 := List.append_cancel_left h2
  exact nat_repr_injective a b (String.ext h3)

/-! ### Reminder scheduling after a pull (C2) -/

theorem add_job_other (js : List Job) (j : Job) (rid : String)
    (hne : ¬ j.id = rid) :
    (add_job_replace js j).filter (fun k => k.id = rid) =
      js.filter (fun k => k.id = rid) := by
  unfold add_job_replace
  rw [List.filter_append]
  have h1 : List.filter (fun k => k.id = rid) [j] = [] := by simp [hne]
  rw [h1, List.append_nil, List.filter_filter]
  apply List.filter_congr
  intro k _
  by_cases h : k.id = rid
  · have h2 : ¬ k.id = j.id := fun he => hne (he ▸ h)
    have h3 : ¬ rid = j.id := fun he => hne he.symm
    simp [h, h2, h3]
  · simp [h]

theorem add_job_same (js : List Job) (j : Job) (rid : String)
    (hid : j.id = rid) :
    (add_job_replace js j).filter (fun k => k.id = rid) = [j] := by
  subst hid
  unfold add_job_replace
  rw [List.filter_append, List.filter_filter]
  have h1 : js.filter (fun k =>
      decide (k.id = j.id) && decide (¬ k.id = j.id)) = [] :=
    List.filter_eq_nil_iff.mpr (fun a _ => by
      by_cases h : a.id = j.id <;> simp [h])
  simp [h1]

theorem reminder_job_for_eq (now : Int) (user : Nat) (t : Task) :
    reminder_job_for now user (some t) =
      (t.due_at.bind fun due =>
        if due = 0 then none
        else if (t.extra.getD {}).all_day = true then none
        else if due - 3600 ≤ now then none
        else some ⟨reminder_id user t.id, due - 3600⟩) := by
  obtain ⟨i, uu, tx, rtx, st, due, ca, ua, so, sa, ex, ci, cei, cee, gu, rc, pi, no, lm⟩ := t
  cases due <;> rfl

theorem schedule_reminders_cons (s : Store) (now : Int) (user : Nat)
    (a : Nat) (rest : List Nat) (jobs : List Job) :
    schedule_reminders s now user (a :: rest) jobs =
      schedule_reminders s now user rest
        ((reminder_job_for now user (get_task s a)).elim jobs
          (add_job_replace jobs)) := by
  cases h : reminder_job_for now user (get_task s a) <;>
    · unfold schedule_reminders
      rw [List.foldl_cons, h]
      rfl

theorem schedule_reminders_append (s : Store) (now : Int) (user : Nat)
    (l1 l2 : List Nat) (jobs : List Job) :
    schedule_reminders s now user (l1 ++ l2) jobs =
      schedule_reminders s now user l2 (schedule_reminders s now user l1 jobs) := by
  unfold schedule_reminders
  exact List.foldl_append ..

/-- A produced reminder job carries the id of the looked-up task and fires
one hour before its due time. -/
theorem reminder_job_for_shape (s : Store) (now : Int) (user : Nat) (a : Nat)
    (j : Job) (h : reminder_job_for now user (get_task s a) = some j) :
    j.id = reminder_id user a := by
  rcases hg : get_task s a with _ | t
  · rw [hg] at h; simp [reminder_job_for] at h
  · rw [hg, reminder_job_for_eq] at h
    rcases hdue : t.due_at with _ | due
    · rw [hdue] at h; simp at h
    · rw [hdue] at h
      simp only [Option.some_bind] at h
      by_cases h0 : due = 0
      · rw [if_pos h0] at h; cases h
      · rw [if_neg h0] at h
        by_cases hall : (t.extra.getD {}).all_day = true
        · rw [if_pos hall] at h; cases h
        · rw [if_neg hall] at h
          by_cases hwhen : due - 3600 ≤ now
          · rw [if_pos hwhen] at h; cases h
          · rw [if_neg hwhen] at h
            injection h with h
            rw [← h, get_task_id s a t hg]

/-- Tasks outside the processed list never disturb the pending job with a
given task's reminder id. -/
theorem schedule_reminders_not_mem (s : Store) (now : Int) (user : Nat)
    (affected : List Nat) (jobs : List Job) (tid : Nat)
    (hnm : tid ∉ affected) :
    (schedule_reminders s now user affected jobs).filter
        (fun k => k.id = reminder_id user tid) =
      jobs.filter (fun k => k.id = reminder_id user tid) := by
  induction affected generalizing jobs with
  | nil => rfl
  | cons a rest ih =>
    have ha : ¬ a = tid := fun h => hnm (h ▸ List.mem_cons_self a rest)
    have hrest : tid ∉ rest := fun h => hnm (List.mem_cons_of_mem a h)
    rw [schedule_reminders_cons]
    rcases hj : reminder_job_for now user (get_task s a) with _ | j
    · exact ih jobs hrest
    · show (schedule_reminders s now user rest (add_job_replace jobs j)).filter
          (fun k => k.id = reminder_id user tid) = _
      rw [ih (add_job_replace jobs j) hrest]
      exact add_job_other jobs j _ (fun he =>
        ha (reminder_id_inj user a tid
          ((reminder_job_for_shape s now user a j hj) ▸ he)))

/-- Claim C2: after a pull, an affected task with a non-all-day due time
more than one hour in the future ends up with exactly one pending reminder
job — id `reminder:<user>:<task>`, run date `due_at − 3600` — replacing
any previous job with that id; an affected task that is all-day, has no
due time, or is due within the hour gets no reminder scheduled (the
pending jobs with its id are exactly the ones that were already there). -/
theorem C2_reminder_scheduling (s : Store) (now : Int) (user : Nat)
    (affected : List Nat) (jobs0 : List Job) (tid : Nat) (t : Task)
    (hnow : 0 ≤ now) (hmem : tid ∈ affected) (hnd : affected.Nodup)
    (hget : get_task s tid = some t) :
    (∀ due, t.due_at = some due → (t.extra.getD {}).all_day = false →
      now + 3600 < due →
      (schedule_reminders s now user affected jobs0).filter
          (fun k => k.id = reminder_id user tid) =
        [⟨reminder_id user tid, due - 3600⟩]) ∧
    ((t.due_at = none ∨ (t.extra.getD {}).all_day = true ∨
        (∀ due, t.due_at = some due → due ≤ now + 3600)) →
      (schedule_reminders s now user affected jobs0).filter
          (fun k => k.id = reminder_id user tid) =
        jobs0.filter (fun k => k.id = reminder_id user tid)) := by
  obtain ⟨l1, l2, rfl⟩ := List.append_of_mem hmem
  have hnm2 := (List.nodup_cons.mp (List.nodup_middle.mp hnd)).1
  have hl1 : tid ∉ l1 := fun h => hnm2 (List.mem_append_left _ h)
  have hl2 : tid ∉ l2 := fun h => hnm2 (List.mem_append_right _ h)
  have hid : t.id = tid := get_task_id s tid t hget
  constructor
  · intro due hdue hall hfut
    have h0 : ¬ due = 0 := by omega
    have hwhen : ¬ due - 3600 ≤ now := by omega
    have hj : reminder_job_for now user (get_task s tid) =
        some ⟨reminder_id user t.id, due - 3600⟩ := by
      rw [hget, reminder_job_for_eq, hdue]
      simp only [Option.some_bind]
      rw [if_neg h0, hall]
      simp only [Bool.false_eq_true, if_false]
      rw [if_neg hwhen]
    rw [schedule_reminders_append, schedule_reminders_cons, hj,
      Option.elim_some,
      schedule_reminders_not_mem s now user l2 _ tid hl2, hid,
      add_job_same _ ⟨reminder_id user tid, due - 3600⟩ (reminder_id user tid) rfl]
  · intro hnone
    have hj : reminder_job_for now user (get_task s tid) = none := by
      rw [hget, reminder_job_for_eq]
      rcases hdue : t.due_at with _ | due
      · rfl
      · simp only [Option.some_bind]
        rcases hnone with hn | hn | hn
        · rw [hn] at hdue; cases hdue
        · by_cases h0 : due = 0
          · rw [if_pos h0]
          · rw [if_neg h0, if_pos hn]
        · have hle : due ≤ now + 3600 := hn due hdue
          by_cases h0 : due = 0
          · rw [if_pos h0]
          · rw [if_neg h0]
            by_cases hall : (t.extra.getD {}).all_day = true
            · rw [if_pos hall]
            · rw [if_neg hall, if_pos (by omega : due - 3600 ≤ now)]
    rw [schedule_reminders_append, schedule_reminders_cons, hj,
      Option.elim_none,
      schedule_reminders_not_mem s now user l2 _ tid hl2,
      schedule_reminders_not_mem s now user l1 _ tid hl1]

/-- Witness for C2: with `now = 0`, a task due at 7200 (two hours out)
yields exactly the job `(reminder:7:1, 3600)`, and a task due at 1800
(half an hour out) yields no job. -/
theorem C2_witness :
    (schedule_reminders ⟨[mkTask 1 7 "a" (some 7200) 0,
        mkTask 2 7 "b" (some 1800) 0], 3⟩ 0 7 [1, 2] []).filter
      (fun k => k.id = reminder_id 7 1) = [⟨reminder_id 7 1, 3600⟩] ∧
    (schedule_reminders ⟨[mkTask 1 7 "a" (some 7200) 0,
        mkTask 2 7 "b" (some 1800) 0], 3⟩ 0 7 [1, 2] []).filter
      (fun k => k.id = reminder_id 7 2) = [] := by
  constructor
  · have := (C2_reminder_scheduling
      ⟨[mkTask 1 7 "a" (some 7200) 0, mkTask 2 7 "b" (some 1800) 0], 3⟩
      0 7 [1, 2] [] 1 (mkTask 1 7 "a" (some 7200) 0)
      (by norm_num) (by decide) (by decide) (by decide)).1
      7200 rfl rfl (by norm_num)
    simpa using this
  · have := (C2_reminder_scheduling
      ⟨[mkTask 1 7 "a" (some 7200) 0, mkTask 2 7 "b" (some 1800) 0], 3⟩
      0 7 [1, 2] [] 2 (mkTask 2 7 "b" (some 1800) 0)
      (by norm_num) (by decide) (by decide) (by decide)).2
      (Or.inr (Or.inr (fun due hdue => by
        injection hdue with hdue
        omega)))
    simpa using this
/-! ### Link exclusivity (C10) -/

/-- Claim C10 (refuted as stated): link exclusivity is not an invariant of
the reachable store states.  The calendar-link index created by
`_ensure_indexes` is a plain (non-unique) index, so nothing stops
`set_task_calendar_link` from pointing two tasks of the same user at one
remote event: the store below is reached by two `add_task` and two
`set_task_calendar_link` calls and violates the property. -/
theorem C10_counterexample :
    Reachable duplicate_link_store ∧ ¬ link_exclusive duplicate_link_store := by
  constructor
  · exact Reachable.setLink _ 13 2 (some "cal") (some "ev") none none
      (Reachable.setLink _ 12 1 (some "cal") (some "ev") none none
        (Reachable.add _ 11 7 "b" none none "open" none none none none none none
          (Reachable.add _ 10 7 "a" none none "open" none none none none none none
            Reachable.empty)))
  · intro h
    have h2 := h
      { id := 1, user_id := 7, text := "a", raw_text := none, status := "open"
        due_at := none, created_at := 10, updated_at := 12, source := none
        source_agent := none, extra := none, calendar_id := some "cal"
        calendar_event_id := some "ev", calendar_event_etag := none
        google_updated_at := none, recurrence := none, person_id := none
        notes := none, last_modified := 10 }
      (by decide)
      { id := 2, user_id := 7, text := "b", raw_text := none, status := "open"
        due_at := none, created_at := 11, updated_at := 13, source := none
        source_agent := none, extra := none, calendar_id := some "cal"
        calendar_event_id := some "ev", calendar_event_etag := none
        google_updated_at := none, recurrence := none, person_id := none
        notes := none, last_modified := 11 }
      (by decide) (by decide) (by decide) (by decide) (by decide)
    exact h2 rfl

/-- Claim C10 amended — what does hold of the sync side: `sync_pull` never
imports a second local task for a remote event id that already matches a
task in its local snapshot; such an event only updates the matching task
in place (no new row, no import). -/
theorem C10_pull_never_duplicates (off now : Int) (user : Nat)
    (st : PullState) (ev : PullEvent) (t : Task)
    (hfound : find_local_by_event_id st.cache ev.id = some t) :
    (sync_pull_step off now user st ev).store.tasks.length =
      st.store.tasks.length ∧
    (sync_pull_step off now user st ev).imported = st.imported := by
  unfold sync_pull_step
  by_cases hcanc : ev.status = some "cancelled"
  · rw [if_pos hcanc]; exact ⟨rfl, rfl⟩
  · rw [if_neg hcanc]
    rcases hst : pull_event_start off ev with _ | ⟨due, allday⟩
    · simp only [hst]
      refine ⟨?_, ?_⟩ <;> first | rfl | trivial
    · simp only [hst, hfound]
      split
      · exact ⟨by simp [safe_update_task, update_task], rfl⟩
      · exact ⟨by simp [safe_update_task, update_task], rfl⟩

/-- Witness for the amended C10: the pulled event `ev1` matches the linked
local task, so the pull updates in place — still one row, nothing
imported. -/
theorem C10_witness :
    (sync_pull_step 0 200 7
      ⟨⟨[mkTask 1 7 "call" (some 5000) 100
          (some { gcal := some ⟨some "primary", some "ev1", none, none⟩ })], 2⟩,
       [mkTask 1 7 "call" (some 5000) 100
          (some { gcal := some ⟨some "primary", some "ev1", none, none⟩ })],
       [], []⟩
      { status := none, summary := some "new title", description := none
        start_dateTime := some 5000, start_date := none
        updated := some 190, id := some "ev1", etag := some "e2" }).store.tasks.length = 1 ∧
    (sync_pull_step 0 200 7
      ⟨⟨[mkTask 1 7 "call" (some 5000) 100
          (some { gcal := some ⟨some "primary", some "ev1", none, none⟩ })], 2⟩,
       [mkTask 1 7 "call" (some 5000) 100
          (some { gcal := some ⟨some "primary", some "ev1", none, none⟩ })],
       [], []⟩
      { status := none, summary := some "new title", description := none
        start_dateTime := some 5000, start_date := none
        updated := some 190, id := some "ev1", etag := some "e2" }).imported = [] := by
  obtain ⟨h1, h2⟩ := C10_pull_never_duplicates 0 200 7
    ⟨⟨[mkTask 1 7 "call" (some 5000) 100
        (some { gcal := some ⟨some "primary", some "ev1", none, none⟩ })], 2⟩,
     [mkTask 1 7 "call" (some 5000) 100
        (some { gcal := some ⟨some "primary", some "ev1", none, none⟩ })],
     [], []⟩
    { status := none, summary := some "new title", description := none
      start_dateTime := some 5000, start_date := none
      updated := some 190, id := some "ev1", etag := some "e2" }
    (mkTask 1 7 "call" (some 5000) 100
      (some { gcal := some ⟨some "primary", some "ev1", none, none⟩ }))
    (by decide)
  exact ⟨h1, h2⟩

/-! ### Idempotent push (C4) -/

theorem default_calendar_ne (c : Option String) :
    ¬ default_calendar c = "" := by
  rcases c with _ | c
  · unfold default_calendar GOOGLE_DEFAULT_CALENDAR_ID
    decide
  · show ¬ (if c = "" then GOOGLE_DEFAULT_CALENDAR_ID else c) = ""
    by_cases h : c = ""
    · rw [if_pos h]
      unfold GOOGLE_DEFAULT_CALENDAR_ID
      decide
    · rw [if_neg h]
      exact h

theorem default_calendar_idem (c : Option String) :
    default_calendar (some (default_calendar c)) = default_calendar c := by
  show (if default_calendar c = "" then GOOGLE_DEFAULT_CALENDAR_ID
        else default_calendar c) = default_calendar c
  rw [if_neg (default_calendar_ne c)]

theorem freshEventId_ne (n : Nat) : ¬ freshEventId n = "" := by
  unfold freshEventId
  intro h
  have hd := congrArg String.data h
  simp only [String.data_append, List.append_eq_nil] at hd
  exact absurd hd.1 (by decide)

theorem get_gcal_link_set (extra : Option Extra) (cal evid : String)
    (etag : Option String) (upd : Option Int) (hev : ¬ evid = "") :
    get_gcal_link (some (set_gcal_link extra cal evid etag upd)) =
      some ⟨default_calendar (some cal), evid, etag, upd⟩ := by
  unfold get_gcal_link set_gcal_link
  simp [hev]

theorem update_task_filter_length (s : Store) (now : Int) (tid : Nat)
    (u : UpdateFields) (tid' : Nat) :
    ((update_task s now tid u).1.tasks.filter (fun r => r.id = tid')).length =
      (s.tasks.filter (fun r => r.id = tid')).length := by
  unfold update_task
  dsimp only
  rw [filter_id_map _ _ (fun t => by split <;> rfl) tid']
  rw [List.length_map]

theorem patch_event_found (r : Remote) (now : Int) (cal evid : String)
    (body : EventBody)
    (hfound : r.events.any (fun e => e.calendar_id = cal ∧ e.id = evid) = true) :
    patch_event r now cal evid body =
      some (⟨r.events.map (fun e =>
          if e.calendar_id = cal ∧ e.id = evid then
            { e with etag := freshEtag r.counter, updated := some now, body := body }
          else e), r.counter + 1⟩, freshEtag r.counter, some now) := by
  unfold patch_event
  rw [if_pos hfound]

theorem update_event_linked (w : World) (now off : Int) (tz : String)
    (task : Task) (link : GEventLink)
    (hl : get_gcal_link task.extra = some link)
    (r' : Remote) (etag : String) (upd : Option Int)
    (hp : patch_event w.remote now link.calendar_id link.event_id
        (build_event_body now off tz task) = some (r', etag, upd)) :
    update_event w now off tz task =
      some ⟨safe_update_task w.store now task.id
        { extra := some (set_gcal_link task.extra link.calendar_id link.event_id
            (some etag) upd) }, r'⟩ := by
  unfold update_event
  rw [hl]
  simp only [hp]

/-- Claim C4: push is idempotent and self-healing.  `update_event` on a
task with no calendar link degrades to `create_event`; and starting from a
linkless task with an empty remote calendar, create-then-update (i.e. the
same push twice, since the first push degrades to a create) leaves exactly
one remote event and exactly one stored row for the task, whose single
link points at that event. -/
theorem C4_idempotent_push (w : World) (now1 now2 off1 off2 : Int)
    (tz : String) (t : Task)
    (hget : get_task w.store t.id = some t)
    (hcount : (w.store.tasks.filter (fun r => r.id = t.id)).length = 1)
    (hnolink : get_gcal_link t.extra = none)
    (hremote : w.remote.events = []) :
    update_event w now1 off1 tz t = some (create_event w now1 off1 tz t).1 ∧
    ∀ t1, get_task (create_event w now1 off1 tz t).1.store t.id = some t1 →
      ∃ w2, update_event (create_event w now1 off1 tz t).1 now2 off2 tz t1
          = some w2 ∧
        w2.remote.events.length = 1 ∧
        (w2.store.tasks.filter (fun r => r.id = t.id)).length = 1 ∧
        ∃ t2 l, get_task w2.store t.id = some t2 ∧
          get_gcal_link t2.extra = some l ∧
          ∀ e ∈ w2.remote.events,
            e.id = l.event_id ∧ e.calendar_id = l.calendar_id := by
  have hdeg : update_event w now1 off1 tz t
      = some (create_event w now1 off1 tz t).1 := by
    unfold update_event
    rw [hnolink]
  refine ⟨hdeg, ?_⟩
  intro t1 ht1
  have hw1 : (create_event w now1 off1 tz t).1 =
      ⟨safe_update_task w.store now1 t.id
         { extra := some (set_gcal_link t.extra (default_calendar t.calendar_id)
             (freshEventId w.remote.counter) (some (freshEtag w.remote.counter))
             (some now1)) },
       ⟨w.remote.events ++
         [⟨default_calendar t.calendar_id, freshEventId w.remote.counter,
           freshEtag w.remote.counter, some now1,
           build_event_body now1 off1 tz t⟩],
        w.remote.counter + 1⟩⟩ := rfl
  rw [hw1] at ht1 ⊢
  have ht1' : get_task (safe_update_task w.store now1 t.id
      { extra := some (set_gcal_link t.extra (default_calendar t.calendar_id)
          (freshEventId w.remote.counter) (some (freshEtag w.remote.counter))
          (some now1)) }) t.id =
      some (update_task_row now1
        { extra := some (set_gcal_link t.extra (default_calendar t.calendar_id)
            (freshEventId w.remote.counter) (some (freshEtag w.remote.counter))
            (some now1)) } t) := by
    unfold safe_update_task
    rw [get_task_update, hget]
    simp
  rw [ht1'] at ht1
  injection ht1 with ht1
  have hid1 : t1.id = t.id := by rw [← ht1]; rfl
  have hex1 : t1.extra =
      some (set_gcal_link t.extra (default_calendar t.calendar_id)
        (freshEventId w.remote.counter) (some (freshEtag w.remote.counter))
        (some now1)) := by
    rw [← ht1]
    rfl
  have hlink1 : get_gcal_link t1.extra =
      some ⟨default_calendar t.calendar_id, freshEventId w.remote.counter,
        some (freshEtag w.remote.counter), some now1⟩ := by
    rw [hex1, get_gcal_link_set _ _ _ _ _ (freshEventId_ne w.remote.counter),
      default_calendar_idem]
  have hany : (w.remote.events ++
      [(⟨default_calendar t.calendar_id, freshEventId w.remote.counter,
        freshEtag w.remote.counter, some now1,
        build_event_body now1 off1 tz t⟩ : RemoteEvent)]).any
        (fun e => e.calendar_id = default_calendar t.calendar_id ∧
          e.id = freshEventId w.remote.counter) = true := by
    rw [hremote]
    simp
  have hpatch := patch_event_found
    ⟨w.remote.events ++
      [⟨default_calendar t.calendar_id, freshEventId w.remote.counter,
        freshEtag w.remote.counter, some now1, build_event_body now1 off1 tz t⟩],
     w.remote.counter + 1⟩
    now2 (default_calendar t.calendar_id) (freshEventId w.remote.counter)
    (build_event_body now2 off2 tz t1) hany
  have hupd := update_event_linked
    ⟨safe_update_task w.store now1 t.id
       { extra := some (set_gcal_link t.extra (default_calendar t.calendar_id)
           (freshEventId w.remote.counter) (some (freshEtag w.remote.counter))
           (some now1)) },
     ⟨w.remote.events ++
       [⟨default_calendar t.calendar_id, freshEventId w.remote.counter,
         freshEtag w.remote.counter, some now1, build_event_body now1 off1 tz t⟩],
      w.remote.counter + 1⟩⟩
    now2 off2 tz t1
    ⟨default_calendar t.calendar_id, freshEventId w.remote.counter,
      some (freshEtag w.remote.counter), some now1⟩
    hlink1 _ _ _ hpatch
  refine ⟨_, hupd, ?_, ?_, ?_⟩
  · rw [hremote]
    simp
  · show ((safe_update_task _ now2 t1.id _).tasks.filter
      (fun r => r.id = t.id)).length = 1
    unfold safe_update_task
    rw [update_task_filter_length]
    show ((safe_update_task _ now1 t.id _).tasks.filter
      (fun r => r.id = t.id)).length = 1
    unfold safe_update_task
    rw [update_task_filter_length]
    exact hcount
  · have hget1 : get_task (safe_update_task w.store now1 t.id
        { extra := some (set_gcal_link t.extra (default_calendar t.calendar_id)
            (freshEventId w.remote.counter) (some (freshEtag w.remote.counter))
            (some now1)) }) t.id = some t1 := by
      rw [ht1', ht1]
    have hget2 : get_task (safe_update_task
        (safe_update_task w.store now1 t.id
          { extra := some (set_gcal_link t.extra (default_calendar t.calendar_id)
              (freshEventId w.remote.counter) (some (freshEtag w.remote.counter))
              (some now1)) }) now2 t1.id
        { extra := some (set_gcal_link t1.extra
            (default_calendar t.calendar_id) (freshEventId w.remote.counter)
            (some (freshEtag (w.remote.counter + 1))) (some now2)) }) t.id =
        some (update_task_row now2
          { extra := some (set_gcal_link t1.extra
              (default_calendar t.calendar_id) (freshEventId w.remote.counter)
              (some (freshEtag (w.remote.counter + 1))) (some now2)) } t1) := by
      unfold safe_update_task
      rw [get_task_update]
      unfold safe_update_task at hget1
      rw [hget1]
      simp
    refine ⟨_, ⟨default_calendar t.calendar_id, freshEventId w.remote.counter,
      some (freshEtag (w.remote.counter + 1)), some now2⟩, hget2, ?_, ?_⟩
    · show get_gcal_link (some (set_gcal_link t1.extra
        (default_calendar t.calendar_id) (freshEventId w.remote.counter)
        (some (freshEtag (w.remote.counter + 1))) (some now2))) = _
      rw [get_gcal_link_set _ _ _ _ _ (freshEventId_ne w.remote.counter),
        default_calendar_idem]
    · intro e he
      rw [hremote] at he
      simp at he
      rw [he]
      exact ⟨rfl, rfl⟩

/-- Witness for C4: pushing the linkless task 1 twice against an empty
remote calendar leaves one remote event and one linked local row. -/
theorem C4_witness :
    update_event ⟨⟨[mkTask 1 7 "call" (some 5000) 100], 2⟩, ⟨[], 0⟩⟩
        10 0 "UTC" (mkTask 1 7 "call" (some 5000) 100)
      = some (create_event ⟨⟨[mkTask 1 7 "call" (some 5000) 100], 2⟩, ⟨[], 0⟩⟩
          10 0 "UTC" (mkTask 1 7 "call" (some 5000) 100)).1 ∧
    ∃ w2, (∃ t1, get_task (create_event
          ⟨⟨[mkTask 1 7 "call" (some 5000) 100], 2⟩, ⟨[], 0⟩⟩
          10 0 "UTC" (mkTask 1 7 "call" (some 5000) 100)).1.store 1 = some t1 ∧
        update_event (create_event
          ⟨⟨[mkTask 1 7 "call" (some 5000) 100], 2⟩, ⟨[], 0⟩⟩
          10 0 "UTC" (mkTask 1 7 "call" (some 5000) 100)).1 20 0 "UTC" t1
          = some w2) ∧
      w2.remote.events.length = 1 ∧
      (w2.store.tasks.filter (fun r => r.id = 1)).length = 1 := by
  obtain ⟨hdeg, hb⟩ := C4_idempotent_push
    ⟨⟨[mkTask 1 7 "call" (some 5000) 100], 2⟩, ⟨[], 0⟩⟩ 10 20 0 0 "UTC"
    (mkTask 1 7 "call" (some 5000) 100)
    (by decide) (by decide) (by decide) rfl
  refine ⟨hdeg, ?_⟩
  rcases hx : get_task (create_event
      ⟨⟨[mkTask 1 7 "call" (some 5000) 100], 2⟩, ⟨[], 0⟩⟩
      10 0 "UTC" (mkTask 1 7 "call" (some 5000) 100)).1.store 1 with _ | t1
  · exact absurd hx (by decide)
  · obtain ⟨w2, hupd, hlen, hcnt, _⟩ := hb t1 hx
    exact ⟨w2, ⟨t1, rfl, hupd⟩, hlen, hcnt⟩

end Assistant
